import Mathlib

/-!
Shallow embedding of the incoming-message processing pipeline and
commit-staging/merge engine of the MLS group implementation
(`src/openmls/src/group/mls_group/processing.rs` and
`processing_state_machine.rs`).

Collaborators that live outside the two source files (the crypto provider,
the public group, the key schedule, `create_commit`, `stage_commit`,
`merge_commit`, message parsing and signature verification) are modelled as
opaque function parameters collected in a `Provider` structure, so every
theorem is quantified over their behaviour.  Pieces of the repository that
are called by the sources but are not part of them (`is_active`,
`is_operational`, `message_secrets_for_epoch`, `clear_pending_commit`,
wire-format policy compatibility) are modelled from the specification and
marked as such.  Machine data that the claims never inspect (ciphertexts,
secrets, credentials, serialized messages) is represented by opaque
natural numbers.
-/

namespace MlsProc

/-- Wire format of a protocol message: public (plaintext) or private
(ciphertext) framing. -/
inductive WireFormat where
  | publicMsg
  | privateMsg
  deriving DecidableEq

/-- Content type carried by a framed message. -/
inductive ContentType where
  | application
  | proposal
  | commit
  deriving DecidableEq

/-- Sender of a framed content, as in the `Sender` enum: a member (by leaf
index), an external sender (by index in the external-senders extension), a
new member joining via an external proposal, or a new member committing. -/
inductive Sender where
  | member (leafIndex : Nat)
  | external (senderIndex : Nat)
  | newMemberProposal
  | newMemberCommit
  deriving DecidableEq

/-- Proposal variants; only the constructor matters for processing dispatch,
payloads are opaque. -/
inductive Proposal where
  | add (keyPackage : Nat)
  | update (leafNode : Nat)
  | remove (removed : Nat)
  | presharedKey (pskId : Nat)
  | groupContextExtensions (extensions : Nat)
  deriving DecidableEq

/-- Body of a framed content: `FramedContentBody`. -/
inductive FramedContentBody where
  | application (data : List Nat)
  | proposal (p : Proposal)
  | commit (c : Nat)
  deriving DecidableEq

/-- The output of decryption and signature verification:
`AuthenticatedContent` (sender, authenticated data, body). -/
structure AuthenticatedContent where
  sender : Sender
  authenticatedData : List Nat
  content : FramedContentBody
  deriving DecidableEq

/-- A proposal together with its content-derived reference
(`QueuedProposal`). -/
structure QueuedProposal where
  proposalRef : Nat
  proposal : Proposal
  deriving DecidableEq

/-- The materialized result of processing a commit (`StagedCommit`): the
`selfRemoved` flag is the only part the merge logic under verification
inspects; the prospective state is behind the `mergeCommit` collaborator. -/
structure StagedCommit where
  selfRemoved : Bool
  payload : Nat
  deriving DecidableEq

/-- Pending commit state: a locally created member commit or an external
commit awaiting merge (`PendingCommitState`). -/
inductive PendingCommitState where
  | member (sc : StagedCommit)
  | external (sc : StagedCommit)
  deriving DecidableEq

/-- Extract the staged commit from a pending commit state
(the `From<PendingCommitState> for StagedCommit` conversion). -/
def PendingCommitState.stagedCommit : PendingCommitState → StagedCommit
  | .member sc => sc
  | .external sc => sc

/-- Group state machine state (`MlsGroupState`):
operational, pending commit, or inactive (evicted). -/
inductive MlsGroupState where
  | operational
  | pendingCommit (s : PendingCommitState)
  | inactive
  deriving DecidableEq

/-- Modelled from the spec: the message secrets store retains the secret
trees of a bounded window of `maxEpochs` past epochs next to the current
epoch's secrets, plus the mutable sender-ratchet state used to decrypt
private messages (the store type itself is not among the sources under
verification).  Secrets are opaque numbers, past epochs are an
association list keyed by epoch. -/
structure MessageSecretsStore where
  maxEpochs : Nat
  pastSecrets : List (Nat × Nat)
  currentSecrets : Nat
  ratchets : Nat
  deriving DecidableEq

/-- Modelled from the spec: incoming wire format policy of the group
configuration (always-ciphertext, always-plaintext, or mixed). -/
inductive IncomingWireFormatPolicy where
  | alwaysCiphertext
  | alwaysPlaintext
  | mixed
  deriving DecidableEq

/-- Modelled from the spec: compatibility of an incoming wire format with
the configured policy ("public vs private framing enforcement"). -/
def IncomingWireFormatPolicy.isCompatibleWith :
    IncomingWireFormatPolicy → WireFormat → Bool
  | .alwaysCiphertext, .privateMsg => true
  | .alwaysCiphertext, .publicMsg => false
  | .alwaysPlaintext, .publicMsg => true
  | .alwaysPlaintext, .privateMsg => false
  | .mixed, _ => true

/-- An encryption key pair (public and private part, opaque). -/
structure EncryptionKeyPair where
  publicKey : Nat
  privateKey : Nat
  deriving DecidableEq

/-- The in-memory group (`MlsGroup`): the fields the processing and merge
code reads or writes.  The ratchet tree / public group is abstracted to an
opaque `treeState`; the current epoch secrets are represented by the one
secret the merge code reads, the resumption PSK. -/
structure MlsGroup where
  groupId : Nat
  groupState : MlsGroupState
  epoch : Nat
  treeState : Nat
  resumptionPsk : Nat
  messageSecretsStore : MessageSecretsStore
  resumptionPskStore : List (Nat × Nat)
  ownLeafNodes : List Nat
  proposalStore : List QueuedProposal
  aad : List Nat
  incomingPolicy : IncomingWireFormatPolicy
  senderRatchetConfig : Nat
  deriving DecidableEq

/-- A publicly framed message: epoch, sender and content type are visible
on the wire. -/
structure PublicMessage where
  epoch : Nat
  sender : Sender
  contentType : ContentType
  deriving DecidableEq

/-- A privately framed (encrypted) message: epoch and content type are
visible, the rest is ciphertext. -/
structure PrivateMessage where
  epoch : Nat
  contentType : ContentType
  ciphertext : Nat
  deriving DecidableEq

/-- A protocol message: public or private framing (`ProtocolMessage`). -/
inductive ProtocolMessage where
  | publicMsg (m : PublicMessage)
  | privateMsg (m : PrivateMessage)
  deriving DecidableEq

/-- Wire format of a protocol message. -/
def ProtocolMessage.wireFormat : ProtocolMessage → WireFormat
  | .publicMsg _ => .publicMsg
  | .privateMsg _ => .privateMsg

/-- Epoch of a protocol message. -/
def ProtocolMessage.epoch : ProtocolMessage → Nat
  | .publicMsg m => m.epoch
  | .privateMsg m => m.epoch

/-- Content type of a protocol message. -/
def ProtocolMessage.contentType : ProtocolMessage → ContentType
  | .publicMsg m => m.contentType
  | .privateMsg m => m.contentType

/-- A handshake message is a proposal or commit (not an application
message). -/
def ProtocolMessage.isHandshake (m : ProtocolMessage) : Bool :=
  match m.contentType with
  | .application => false
  | _ => true

/-- Modelled from the spec: a message "from an external, non-member
sender" (exempt from the incoming wire-format policy check); only public
messages can carry such senders. -/
def ProtocolMessage.isExternalSender : ProtocolMessage → Bool
  | .publicMsg m =>
    match m.sender with
    | .external _ => true
    | .newMemberProposal => true
    | _ => false
  | .privateMsg _ => false

/-- Group-state errors (`MlsGroupStateError`). -/
inductive MlsGroupStateError where
  | useAfterEviction
  | pendingCommit
  deriving DecidableEq

/-- Secret tree lookup errors (`SecretTreeError`); codes of variants other
than `TooDistantInThePast` are opaque. -/
inductive SecretTreeError where
  | tooDistantInThePast
  | other (code : Nat)
  deriving DecidableEq

/-- Validation errors (`ValidationError`); only the variants the sources
distinguish are named, the rest are opaque codes. -/
inductive ValidationError where
  | noPastEpochData
  | libraryError (code : Nat)
  | other (code : Nat)
  deriving DecidableEq

/-- Commit staging errors (`StageCommitError`). -/
inductive StageCommitError where
  | missingDecryptionKey
  | pskError (code : Nat)
  | other (code : Nat)
  deriving DecidableEq

/-- Message processing errors (`ProcessMessageError`). -/
inductive ProcessMessageError where
  | groupStateError (e : MlsGroupStateError)
  | incompatibleWireFormat
  | validationError (e : ValidationError)
  | invalidCommit (e : StageCommitError)
  | unauthorizedExternalApplicationMessage
  | unsupportedProposalType
  | invalidSignature (code : Nat)
  | libraryError (code : Nat)
  deriving DecidableEq

/-- Errors of `merge_staged_commit` (`MergeCommitError`): a storage
failure or an opaque error of the `merge_commit` collaborator. -/
inductive MergeCommitError where
  | storageError
  | mergeError (code : Nat)
  deriving DecidableEq

/-- Errors of `merge_pending_commit` (`MergePendingCommitError`). -/
inductive MergePendingCommitError where
  | groupStateError (e : MlsGroupStateError)
  | mergeError (e : MergeCommitError)
  deriving DecidableEq

/-- Errors of `commit_to_pending_proposals`
(`CommitToPendingProposalsError`). -/
inductive CommitToPendingProposalsError where
  | groupStateError (e : MlsGroupStateError)
  | createCommitError (code : Nat)
  | libraryError (code : Nat)
  | storageError
  deriving DecidableEq

/-- Outcome of a fallible computation that may additionally abort with a
Rust panic (needed because the external-sender commit arm of the source is
a literal `unimplemented!`). -/
inductive POutcome (ε α : Type) where
  | ok (a : α)
  | err (e : ε)
  | panicked
  deriving DecidableEq

/-- Whether an outcome is a returned (typed) error. -/
def POutcome.isErr {ε α : Type} : POutcome ε α → Bool
  | .err _ => true
  | _ => false

/-- Content variants of a processed message (`ProcessedMessageContent`). -/
inductive ProcessedMessageContent where
  | applicationMessage (data : List Nat)
  | proposalMessage (p : QueuedProposal)
  | externalJoinProposalMessage (p : QueuedProposal)
  | stagedCommitMessage (c : StagedCommit)
  deriving DecidableEq

/-- The result handed back to the caller (`ProcessedMessage`): group id,
epoch at validation, sender, authenticated data, content variant and the
sender's credential. -/
structure ProcessedMessage where
  groupId : Nat
  epoch : Nat
  sender : Sender
  authenticatedData : List Nat
  content : ProcessedMessageContent
  credential : Nat
  deriving DecidableEq

/-- Events of the persisted-write trace, used to state in which order
`merge_staged_commit` touches storage. -/
inductive StorageEvent where
  | writeGroupState (s : MlsGroupState)
  | replaceEpochTree
  | writeResumptionPskStore
  | deleteOwnLeafNodes
  deriving DecidableEq

/-- The storage provider's persisted state, plus per-operation failure
flags modelling that "each call [is] independently fallible". -/
structure StorageState where
  groupState : Option MlsGroupState
  resumptionPskStore : Option (List (Nat × Nat))
  ownLeafNodes : List Nat
  epochKeyPairs : List EncryptionKeyPair
  keyPairs : List (Nat × EncryptionKeyPair)
  failWriteGroupState : Bool
  failWriteResumptionPskStore : Bool
  failDeleteOwnLeafNodes : Bool
  deriving DecidableEq

/-- Result of `create_commit`: the commit message, optional welcome,
optional group info and the staged commit to be stored as pending. -/
structure CreateCommitResult where
  commit : Nat
  welcomeOption : Option Nat
  groupInfo : Option Nat
  stagedCommit : StagedCommit
  deriving DecidableEq

/-- The collaborators the sources call but do not define: crypto provider,
public group, key schedule, commit creation/staging/merge.  Each is an
opaque total function; theorems are quantified over them. -/
structure Provider where
  validateFraming : Nat → ProtocolMessage → Except ValidationError Unit
  fromInboundPublicMessage : PublicMessage → Nat → Except ValidationError Nat
  fromInboundCiphertext :
    PrivateMessage → MessageSecretsStore → Nat →
      MessageSecretsStore × Except ValidationError Nat
  parseMessage : Nat → MessageSecretsStore → Nat → Except ProcessMessageError Nat
  verifySignature : Nat → Except ProcessMessageError (AuthenticatedContent × Nat)
  fromAuthContentByRef :
    MlsGroup → AuthenticatedContent → Except ProcessMessageError QueuedProposal
  stageCommit :
    MlsGroup → AuthenticatedContent → List EncryptionKeyPair →
      List EncryptionKeyPair → List (Nat × Nat) → Except StageCommitError StagedCommit
  committedPskProposals : AuthenticatedContent → List QueuedProposal → List Nat
  loadPsks :
    StorageState → List (Nat × Nat) → List Nat → Except Nat (List (Nat × Nat))
  createCommit : MlsGroup → Except Nat CreateCommitResult
  contentToMlsMessage : MlsGroup → Nat → Except Nat Nat
  mergeCommit : MlsGroup → StagedCommit → Except Nat (Nat × Nat × Nat)

/-- Modelled from the spec: whether the member is still active in the
group (`is_active` is not among the sources; the spec says the inactive
state is terminal and gates all processing). -/
def MlsGroupState.isActive : MlsGroupState → Bool
  | .inactive => false
  | _ => true

/-- Modelled from the spec: the check performed by `is_operational`
(not among the sources): commit creation requires the operational state,
a pending commit means "at most one outstanding local commit" is violated,
inactive means use-after-eviction. -/
def isOperationalCheck (g : MlsGroup) : Option MlsGroupStateError :=
  match g.groupState with
  | .operational => none
  | .pendingCommit _ => some .pendingCommit
  | .inactive => some .useAfterEviction

/-- Modelled from the spec: `message_secrets_for_epoch` (not among the
sources): for an epoch older than the current one the retained secret
tree is looked up in the bounded window of past epochs, failing with
`TooDistantInThePast` when it is no longer retained; otherwise the current
epoch's secrets are used. -/
def messageSecretsForEpoch (g : MlsGroup) (epoch : Nat) : Except SecretTreeError Nat :=
  if epoch < g.epoch then
    match List.lookup epoch g.messageSecretsStore.pastSecrets with
    | some s => Except.ok s
    | none => Except.error SecretTreeError.tooDistantInThePast
  else
    Except.ok g.messageSecretsStore.currentSecrets

/-- Embedding of `decrypt_message`: framing validation, then for public
messages the epoch's message secrets are located (mapping
`TooDistantInThePast` to the distinct `NoPastEpochData` error and anything
else to a library error) and used to parse the message; private messages
go through the sender-ratchet decryption, which may advance the ratchet
state of the message secrets store. -/
def decryptMessage (p : Provider) (g : MlsGroup) (m : ProtocolMessage) :
    MlsGroup × Except ValidationError Nat :=
  match p.validateFraming g.treeState m with
  | .error e => (g, .error e)
  | .ok _ =>
    match m with
    | .publicMsg pm =>
      match messageSecretsForEpoch g pm.epoch with
      | .error .tooDistantInThePast => (g, .error .noPastEpochData)
      | .error (.other c) => (g, .error (.libraryError c))
      | .ok secrets => (g, p.fromInboundPublicMessage pm secrets)
    | .privateMsg cm =>
      let res := p.fromInboundCiphertext cm g.messageSecretsStore g.senderRatchetConfig
      ({ g with messageSecretsStore := res.1 }, res.2)

/-- Embedding of `decrypt_and_verify_message`: rejects when the group is
inactive, rejects handshake messages incompatible with the incoming
wire-format policy (unless from an external sender), then decrypts,
parses and verifies the signature, returning the authenticated content
and the sender's credential. -/
def decryptAndVerifyMessage (p : Provider) (g : MlsGroup) (m : ProtocolMessage) :
    MlsGroup × Except ProcessMessageError (AuthenticatedContent × Nat) :=
  if !g.groupState.isActive then
    (g, .error (.groupStateError .useAfterEviction))
  else if !m.isExternalSender && m.isHandshake
      && !(g.incomingPolicy.isCompatibleWith m.wireFormat) then
    (g, .error .incompatibleWireFormat)
  else
    match decryptMessage p g m with
    | (g1, .error e) => (g1, .error (.validationError e))
    | (g1, .ok dm) =>
      match p.parseMessage g1.treeState g1.messageSecretsStore dm with
      | .error e => (g1, .error e)
      | .ok um =>
        match p.verifySignature um with
        | .error e => (g1, .error e)
        | .ok res => (g1, .ok res)

/-- Embedding of the leaf-keypair reads inside
`read_decryption_keypairs`: each own leaf node's key pair is read from
storage by its encryption key, failing with `MissingDecryptionKey` when
absent. -/
def readLeafKeypairs (st : StorageState) :
    List Nat → Except StageCommitError (List EncryptionKeyPair)
  | [] => .ok []
  | k :: ks =>
    match List.lookup k st.keyPairs with
    | none => .error .missingDecryptionKey
    | some kp =>
      match readLeafKeypairs st ks with
      | .error e => .error e
      | .ok rest => .ok (kp :: rest)

/-- Embedding of `read_decryption_keypairs`: the previous epoch's key
pairs plus the key pairs of the member's own pending leaf nodes. -/
def readDecryptionKeypairs (g : MlsGroup) (st : StorageState) :
    Except StageCommitError (List EncryptionKeyPair × List EncryptionKeyPair) :=
  match readLeafKeypairs st g.ownLeafNodes with
  | .error e => .error e
  | .ok leafs => .ok (st.epochKeyPairs, leafs)

/-- The I/O results needed for finalization (`MessageProcessingIo`). -/
structure LoadedState where
  psks : List (Nat × Nat)
  oldEpochKeypairs : List EncryptionKeyPair
  leafNodeKeypairs : List EncryptionKeyPair

/-- Embedding of `InitialProcessingState::perform_io`: read the decryption
key pools and resolve the pre-shared keys referenced by a committed PSK
proposal; reads only, no storage write. -/
def performLoads (p : Provider) (g : MlsGroup) (st : StorageState)
    (content : AuthenticatedContent) : Except ProcessMessageError LoadedState :=
  match readDecryptionKeypairs g st with
  | .error e => .error (.invalidCommit e)
  | .ok pools =>
    let pskIds := p.committedPskProposals content g.proposalStore
    match p.loadPsks st g.resumptionPskStore pskIds with
    | .error c => .error (.invalidCommit (.pskError c))
    | .ok psks => .ok ⟨psks, pools.1, pools.2⟩

/-- Embedding of `process_authenticated_content`: dispatch over sender
category and content type.  The external-sender commit arm is a literal
Rust `unimplemented!`, modelled as the `panicked` outcome. -/
def processAuthenticatedContent (p : Provider) (g : MlsGroup)
    (content : AuthenticatedContent) (credential : Nat)
    (psks : List (Nat × Nat))
    (oldEpochKeypairs leafNodeKeypairs : List EncryptionKeyPair) :
    POutcome ProcessMessageError ProcessedMessage :=
  match content.sender with
  | .member _ | .newMemberCommit | .newMemberProposal =>
    match content.content with
    | .application d =>
      .ok ⟨g.groupId, g.epoch, content.sender, content.authenticatedData,
        .applicationMessage d, credential⟩
    | .proposal _ =>
      match p.fromAuthContentByRef g content with
      | .error e => .err e
      | .ok qp =>
        if content.sender = .newMemberProposal then
          .ok ⟨g.groupId, g.epoch, content.sender, content.authenticatedData,
            .externalJoinProposalMessage qp, credential⟩
        else
          .ok ⟨g.groupId, g.epoch, content.sender, content.authenticatedData,
            .proposalMessage qp, credential⟩
    | .commit _ =>
      match p.stageCommit g content oldEpochKeypairs leafNodeKeypairs psks with
      | .error e => .err (.invalidCommit e)
      | .ok sc =>
        .ok ⟨g.groupId, g.epoch, content.sender, content.authenticatedData,
          .stagedCommitMessage sc, credential⟩
  | .external _ =>
    match content.content with
    | .application _ => .err .unauthorizedExternalApplicationMessage
    | .proposal (.remove _) =>
      match p.fromAuthContentByRef g content with
      | .error e => .err e
      | .ok qp =>
        .ok ⟨g.groupId, g.epoch, content.sender, content.authenticatedData,
          .proposalMessage qp, credential⟩
    | .proposal _ => .err .unsupportedProposalType
    | .commit _ => .panicked

/-- Embedding of `process_message`: the three-phase pipeline
(init = decrypt and verify, perform the storage reads, finalize by
dispatching the authenticated content).  State passing is explicit: the
possibly-updated group (ratchet state) and the storage are returned along
with the outcome. -/
def processMessage (p : Provider) (g : MlsGroup) (st : StorageState)
    (m : ProtocolMessage) :
    MlsGroup × StorageState × POutcome ProcessMessageError ProcessedMessage :=
  match decryptAndVerifyMessage p g m with
  | (g1, .error e) => (g1, st, .err e)
  | (g1, .ok (content, credential)) =>
    match performLoads p g1 st content with
    | .error e => (g1, st, .err e)
    | .ok keys =>
      (g1, st, processAuthenticatedContent p g1 content credential
        keys.psks keys.oldEpochKeypairs keys.leafNodeKeypairs)

/-- Modelled from the spec: step 6 of the merge procedure, "Clear any
outstanding pending-commit marker" (`clear_pending_commit` is not among
the sources).  A pending-commit marker is replaced by the operational
state and the new state is persisted; in any other state nothing
happens. -/
def clearPendingCommit (g : MlsGroup) (st : StorageState) :
    MlsGroup × StorageState × List StorageEvent × Option MergeCommitError :=
  match g.groupState with
  | .pendingCommit _ =>
    let g1 := { g with groupState := MlsGroupState.operational }
    if st.failWriteGroupState then
      (g1, st, [], some .storageError)
    else
      (g1, { st with groupState := some MlsGroupState.operational },
        [.writeGroupState .operational], none)
  | _ => (g, st, [], none)

/-- Embedding of `merge_staged_commit`: flag self-removal (inactive state)
first, persist the group state, merge the commit (replacing epoch and
tree), append and persist the new epoch's resumption PSK, clear and
delete the member's own leaf key pairs, then clear a potential pending
commit.  The third component is the trace of persisted writes in order. -/
def mergeStagedCommit (p : Provider) (g : MlsGroup) (st : StorageState)
    (sc : StagedCommit) :
    MlsGroup × StorageState × List StorageEvent × Option MergeCommitError :=
  let g1 := if sc.selfRemoved then { g with groupState := MlsGroupState.inactive } else g
  if st.failWriteGroupState then
    (g1, st, [], some .storageError)
  else
    let st1 := { st with groupState := some g1.groupState }
    match p.mergeCommit g1 sc with
    | .error c =>
      (g1, st1, [.writeGroupState g1.groupState], some (.mergeError c))
    | .ok (ep, tree, psk) =>
      let g2 := { g1 with epoch := ep, treeState := tree, resumptionPsk := psk }
      let g3 := { g2 with
        resumptionPskStore := g2.resumptionPskStore ++ [(g2.epoch, g2.resumptionPsk)] }
      if st.failWriteResumptionPskStore then
        (g3, st1, [.writeGroupState g1.groupState, .replaceEpochTree],
          some .storageError)
      else
        let st2 := { st1 with resumptionPskStore := some g3.resumptionPskStore }
        let g4 := { g3 with ownLeafNodes := [] }
        if st.failDeleteOwnLeafNodes then
          (g4, st2,
            [.writeGroupState g1.groupState, .replaceEpochTree,
              .writeResumptionPskStore],
            some .storageError)
        else
          let st3 := { st2 with ownLeafNodes := [] }
          let res := clearPendingCommit g4 st3
          (res.1, res.2.1,
            [.writeGroupState g1.groupState, .replaceEpochTree,
              .writeResumptionPskStore, .deleteOwnLeafNodes] ++ res.2.2.1,
            res.2.2.2)

/-- Embedding of `merge_pending_commit`: a pending commit is swapped out
for the operational state and merged; inactive fails with
use-after-eviction; operational is an accepted no-op. -/
def mergePendingCommit (p : Provider) (g : MlsGroup) (st : StorageState) :
    MlsGroup × StorageState × List StorageEvent × Option MergePendingCommitError :=
  match g.groupState with
  | .pendingCommit pcs =>
    let g1 := { g with groupState := MlsGroupState.operational }
    let res := mergeStagedCommit p g1 st pcs.stagedCommit
    (res.1, res.2.1, res.2.2.1, res.2.2.2.map MergePendingCommitError.mergeError)
  | .inactive => (g, st, [], some (.groupStateError .useAfterEviction))
  | .operational => (g, st, [], none)

/-- Embedding of `commit_to_pending_proposals`: requires the operational
state, creates the commit, converts it to an outgoing message, then sets
the group state to pending-commit, persists it and resets the
authenticated additional data. -/
def commitToPendingProposals (p : Provider) (g : MlsGroup) (st : StorageState) :
    MlsGroup × StorageState ×
      Except CommitToPendingProposalsError (Nat × Option Nat × Option Nat) :=
  match isOperationalCheck g with
  | some e => (g, st, .error (.groupStateError e))
  | none =>
    match p.createCommit g with
    | .error c => (g, st, .error (.createCommitError c))
    | .ok ccr =>
      match p.contentToMlsMessage g ccr.commit with
      | .error c => (g, st, .error (.libraryError c))
      | .ok msg =>
        let g1 := { g with
          groupState := MlsGroupState.pendingCommit (.member ccr.stagedCommit) }
        if st.failWriteGroupState then
          (g1, st, .error .storageError)
        else
          let st1 := { st with groupState := some g1.groupState }
          let g2 := { g1 with aad := [] }
          (g2, st1, .ok (msg, ccr.welcomeOption, ccr.groupInfo))

/-- The message secrets store retains exactly the bounded window of past
epochs below the group's current epoch (the well-formedness the spec
ascribes to the retention policy). -/
def retainsWindow (g : MlsGroup) : Prop :=
  ∀ e, (List.lookup e g.messageSecretsStore.pastSecrets).isSome ↔
    (e < g.epoch ∧ g.epoch ≤ e + g.messageSecretsStore.maxEpochs)

/-- A concrete, trivially succeeding provider used to evaluate the
theorems on concrete inputs. -/
def provW : Provider where
  validateFraming := fun _ _ => .ok ()
  fromInboundPublicMessage := fun pm s => .ok (pm.epoch + s)
  fromInboundCiphertext := fun _ ms _ => (ms, .ok 1)
  parseMessage := fun _ _ d => .ok d
  verifySignature := fun _ => .ok (⟨Sender.member 0, [], .application [1]⟩, 5)
  fromAuthContentByRef := fun _ c =>
    match c.content with
    | .proposal pr => .ok ⟨1, pr⟩
    | _ => .error (.libraryError 0)
  stageCommit := fun _ _ _ _ _ => .ok ⟨false, 0⟩
  committedPskProposals := fun _ _ => []
  loadPsks := fun _ _ _ => .ok []
  createCommit := fun _ => .ok ⟨10, none, none, ⟨false, 0⟩⟩
  contentToMlsMessage := fun _ c => .ok c
  mergeCommit := fun g _ => .ok (g.epoch + 1, g.treeState + 1, 77)

/-- A provider whose framing validation rejects every message. -/
def provRejectW : Provider :=
  { provW with validateFraming := fun _ _ => .error (.other 3) }

/-- A provider whose commit creation fails. -/
def provNoCommitW : Provider :=
  { provW with createCommit := fun _ => .error 4 }

/-- A concrete operational group: epoch 2, one retained past epoch. -/
def groupW : MlsGroup where
  groupId := 7
  groupState := .operational
  epoch := 2
  treeState := 5
  resumptionPsk := 42
  messageSecretsStore := ⟨1, [(1, 11)], 12, 0⟩
  resumptionPskStore := [(2, 42)]
  ownLeafNodes := [3]
  proposalStore := []
  aad := [9]
  incomingPolicy := .mixed
  senderRatchetConfig := 0

/-- The concrete group after eviction. -/
def groupInactiveW : MlsGroup := { groupW with groupState := .inactive }

/-- The concrete group with a pending member commit. -/
def groupPendingW : MlsGroup :=
  { groupW with groupState := .pendingCommit (.member ⟨false, 0⟩) }

/-- A concrete storage state with no failures. -/
def storageW : StorageState where
  groupState := some .operational
  resumptionPskStore := some [(2, 42)]
  ownLeafNodes := [3]
  epochKeyPairs := [⟨20, 21⟩]
  keyPairs := [(3, ⟨3, 30⟩)]
  failWriteGroupState := false
  failWriteResumptionPskStore := false
  failDeleteOwnLeafNodes := false

/-- A concrete storage state whose group-state write fails. -/
def storageFailW : StorageState := { storageW with failWriteGroupState := true }

/-- Concrete authenticated contents from an external sender. -/
def contentExtAppW : AuthenticatedContent := ⟨.external 4, [8], .application [5]⟩

/-- External sender, remove proposal. -/
def contentExtRemoveW : AuthenticatedContent := ⟨.external 4, [8], .proposal (.remove 2)⟩

/-- External sender, non-remove proposal. -/
def contentExtAddW : AuthenticatedContent := ⟨.external 4, [8], .proposal (.add 6)⟩

/-- External sender, commit body. -/
def contentExtCommitW : AuthenticatedContent := ⟨.external 4, [8], .commit 0⟩

/-- A concrete self-removing staged commit. -/
def scSelfRemovedW : StagedCommit := ⟨true, 0⟩

/-- A concrete non-self-removing staged commit. -/
def scOrdinaryW : StagedCommit := ⟨false, 0⟩

/-- A concrete public message from a past epoch beyond the retained
window of `groupW`. -/
def pmTooOldW : PublicMessage := ⟨0, .member 1, .application⟩

/-- A concrete public message within the retained window of `groupW`. -/
def pmInWindowW : PublicMessage := ⟨1, .member 1, .application⟩

/-- The result group of `decryptMessage` differs from the input group at
most in the message secrets store (the sender-ratchet state). -/
theorem decryptMessage_group_shape (p : Provider) (g : MlsGroup) (m : ProtocolMessage) :
    ∃ ms, (decryptMessage p g m).1 = { g with messageSecretsStore := ms } := by
  unfold decryptMessage
  split
  · exact ⟨g.messageSecretsStore, rfl⟩
  · split
    · split
      · exact ⟨g.messageSecretsStore, rfl⟩
      · exact ⟨g.messageSecretsStore, rfl⟩
      · exact ⟨g.messageSecretsStore, rfl⟩
    · exact ⟨_, rfl⟩

/-- The result group of `decryptAndVerifyMessage` differs from the input
group at most in the message secrets store. -/
theorem decryptAndVerifyMessage_group_shape (p : Provider) (g : MlsGroup)
    (m : ProtocolMessage) :
    ∃ ms, (decryptAndVerifyMessage p g m).1 = { g with messageSecretsStore := ms } := by
  unfold decryptAndVerifyMessage
  split
  · exact ⟨g.messageSecretsStore, rfl⟩
  · split
    · exact ⟨g.messageSecretsStore, rfl⟩
    · obtain ⟨ms, hms⟩ := decryptMessage_group_shape p g m
      rcases hd : decryptMessage p g m with ⟨g1, r⟩
      rw [hd] at hms
      simp only at hms
      subst hms
      cases r with
      | error e => exact ⟨ms, rfl⟩
      | ok dm =>
        simp only
        split
        · exact ⟨ms, rfl⟩
        · split
          · exact ⟨ms, rfl⟩
          · exact ⟨ms, rfl⟩

/-- The result group of `processMessage` differs from the input group at
most in the message secrets store, and the storage is never touched. -/
theorem processMessage_shape (p : Provider) (g : MlsGroup) (st : StorageState)
    (m : ProtocolMessage) :
    (∃ ms, (processMessage p g st m).1 = { g with messageSecretsStore := ms }) ∧
      (processMessage p g st m).2.1 = st := by
  unfold processMessage
  obtain ⟨ms, hms⟩ := decryptAndVerifyMessage_group_shape p g m
  rcases hd : decryptAndVerifyMessage p g m with ⟨g1, r⟩
  rw [hd] at hms
  simp only at hms
  subst hms
  cases r with
  | error e => exact ⟨⟨ms, rfl⟩, rfl⟩
  | ok res =>
    simp only
    split
    · exact ⟨⟨ms, rfl⟩, rfl⟩
    · exact ⟨⟨ms, rfl⟩, rfl⟩

/-- Claim C1: for every authenticated content whose sender is External,
`process_authenticated_content` rejects Application content with the
unauthorized-external-application error, accepts a Remove proposal
(returning it as a queued proposal message carrying the group id, current
epoch, sender, authenticated data, and credential), and rejects every
other proposal type with the unsupported-proposal-type error. -/
theorem external_sender_dispatch (p : Provider) (g : MlsGroup)
    (c : AuthenticatedContent) (credential : Nat) (psks : List (Nat × Nat))
    (okp lkp : List EncryptionKeyPair) (i : Nat)
    (hs : c.sender = .external i) :
    (∀ d, c.content = .application d →
      processAuthenticatedContent p g c credential psks okp lkp =
        .err .unauthorizedExternalApplicationMessage) ∧
    (∀ r qp, c.content = .proposal (.remove r) →
      p.fromAuthContentByRef g c = .ok qp →
      processAuthenticatedContent p g c credential psks okp lkp =
        .ok ⟨g.groupId, g.epoch, c.sender, c.authenticatedData,
          .proposalMessage qp, credential⟩) ∧
    (∀ pr, c.content = .proposal pr → (∀ r, pr ≠ .remove r) →
      processAuthenticatedContent p g c credential psks okp lkp =
        .err .unsupportedProposalType) := by
  refine ⟨?_, ?_, ?_⟩
  · intro d hc
    simp [processAuthenticatedContent, hs, hc]
  · intro r qp hc hq
    simp [processAuthenticatedContent, hs, hc, hq]
  · intro pr hc hnr
    cases pr with
    | add a => simp [processAuthenticatedContent, hs, hc]
    | update a => simp [processAuthenticatedContent, hs, hc]
    | remove r => exact absurd rfl (hnr r)
    | presharedKey a => simp [processAuthenticatedContent, hs, hc]
    | groupContextExtensions a => simp [processAuthenticatedContent, hs, hc]

/-- Witness for the external-sender dispatch theorem, evaluated on the
three concrete external contents. -/
theorem external_sender_dispatch_witness :
    contentExtAppW.sender = Sender.external 4 ∧
    processAuthenticatedContent provW groupW contentExtAppW 9 [] [] [] =
      .err .unauthorizedExternalApplicationMessage ∧
    processAuthenticatedContent provW groupW contentExtRemoveW 9 [] [] [] =
      .ok ⟨7, 2, .external 4, [8], .proposalMessage ⟨1, .remove 2⟩, 9⟩ ∧
    processAuthenticatedContent provW groupW contentExtAddW 9 [] [] [] =
      .err .unsupportedProposalType := by
  refine ⟨rfl, ?_, ?_, ?_⟩
  · exact (external_sender_dispatch provW groupW contentExtAppW 9 [] [] [] 4 rfl).1
      [5] rfl
  · exact (external_sender_dispatch provW groupW contentExtRemoveW 9 [] [] [] 4
      rfl).2.1 2 ⟨1, .remove 2⟩ rfl rfl
  · exact (external_sender_dispatch provW groupW contentExtAddW 9 [] [] [] 4
      rfl).2.2 (.add 6) rfl (by intro r h; cases h)

/-- Claim C2: on every message on which `process_message` fails, the
group's epoch, tree state and stored keys (the whole storage, together
with the in-memory own leaf nodes and resumption PSKs) are identical
before and after the call; only the sender-ratchet part of the message
secrets may have advanced during decryption. -/
theorem no_mutation_on_reject (p : Provider) (g : MlsGroup) (st : StorageState)
    (m : ProtocolMessage) (e : ProcessMessageError)
    (_h : (processMessage p g st m).2.2 = .err e) :
    (processMessage p g st m).1.epoch = g.epoch ∧
    (processMessage p g st m).1.treeState = g.treeState ∧
    (processMessage p g st m).1.ownLeafNodes = g.ownLeafNodes ∧
    (processMessage p g st m).1.resumptionPskStore = g.resumptionPskStore ∧
    (processMessage p g st m).1.groupState = g.groupState ∧
    (processMessage p g st m).2.1 = st := by
  obtain ⟨⟨ms, hms⟩, hst⟩ := processMessage_shape p g st m
  rw [hms, hst]
  exact ⟨rfl, rfl, rfl, rfl, rfl, rfl⟩

/-- Witness for the no-mutation-on-reject theorem: a concrete message the
provider's framing validation rejects. -/
theorem no_mutation_on_reject_witness :
    (processMessage provRejectW groupW storageW (.publicMsg pmInWindowW)).2.2 =
      POutcome.err (.validationError (.other 3)) ∧
    (processMessage provRejectW groupW storageW (.publicMsg pmInWindowW)).1.epoch =
      groupW.epoch ∧
    (processMessage provRejectW groupW storageW (.publicMsg pmInWindowW)).2.1 =
      storageW := by
  refine ⟨rfl, ?_, ?_⟩
  · exact (no_mutation_on_reject provRejectW groupW storageW (.publicMsg pmInWindowW)
      (.validationError (.other 3)) rfl).1
  · exact (no_mutation_on_reject provRejectW groupW storageW (.publicMsg pmInWindowW)
      (.validationError (.other 3)) rfl).2.2.2.2.2

/-- Counterexample to claim C7 as stated: on a concrete external-sender
commit, `process_authenticated_content` does not return an error — the
code path is a literal Rust `unimplemented!`, i.e. it aborts with a
panic. -/
theorem external_commit_counterexample :
    processAuthenticatedContent provW groupW contentExtCommitW 9 [] [] [] =
      POutcome.panicked ∧
    (processAuthenticatedContent provW groupW contentExtCommitW 9 [] [] []).isErr =
      false :=
  ⟨rfl, rfl⟩

/-- Claim C7 (amended): for every authenticated content with an External
sender and Commit body, `process_authenticated_content` never produces a
processed message or a staged commit — the code path is unimplemented and
aborts with a panic instead of returning a typed error. -/
theorem external_commit_unimplemented (p : Provider) (g : MlsGroup)
    (c : AuthenticatedContent) (credential : Nat) (psks : List (Nat × Nat))
    (okp lkp : List EncryptionKeyPair) (i : Nat) (cm : Nat)
    (hs : c.sender = .external i) (hc : c.content = .commit cm) :
    processAuthenticatedContent p g c credential psks okp lkp = .panicked := by
  simp [processAuthenticatedContent, hs, hc]

/-- Witness for the amended external-commit theorem on the concrete
external commit content. -/
theorem external_commit_unimplemented_witness :
    contentExtCommitW.sender = Sender.external 4 ∧
    contentExtCommitW.content = FramedContentBody.commit 0 ∧
    processAuthenticatedContent provW groupPendingW contentExtCommitW 9 [] [] [] =
      POutcome.panicked :=
  ⟨rfl, rfl,
    external_commit_unimplemented provW groupPendingW contentExtCommitW 9 [] [] []
      4 0 rfl rfl⟩

/-- Claim C5: calling `commit_to_pending_proposals` while a commit is
pending returns an error and leaves the group and storage untouched; in
particular, after a successful call (which sets the pending-commit
state), a second call — under any provider and without a merge or clear
in between — fails. -/
theorem commit_twice_fails (p q : Provider) (st st1 : StorageState) :
    (∀ g s, g.groupState = .pendingCommit s →
      commitToPendingProposals p g st =
        (g, st, .error (.groupStateError .pendingCommit))) ∧
    (∀ g g1 st2 out, commitToPendingProposals p g st1 = (g1, st2, .ok out) →
      commitToPendingProposals q g1 st2 =
        (g1, st2, .error (.groupStateError .pendingCommit))) := by
  constructor
  · intro g s h
    simp [commitToPendingProposals, isOperationalCheck, h]
  · intro g g1 st2 out h
    unfold commitToPendingProposals at h
    split at h
    · simp at h
    · split at h
      · simp at h
      · split at h
        · simp at h
        · split at h
          · simp at h
          · simp only [Prod.mk.injEq] at h
            obtain ⟨hg, hst, -⟩ := h
            subst hg
            subst hst
            simp [commitToPendingProposals, isOperationalCheck]

/-- Witness for the commit-twice theorem: a concrete pending-commit group
rejected, and a concrete successful first call followed by a failing
second call. -/
theorem commit_twice_fails_witness :
    groupPendingW.groupState = MlsGroupState.pendingCommit (.member ⟨false, 0⟩) ∧
    commitToPendingProposals provW groupPendingW storageW =
      (groupPendingW, storageW, .error (.groupStateError .pendingCommit)) ∧
    commitToPendingProposals provW groupW storageW =
      ({ groupW with groupState := .pendingCommit (.member ⟨false, 0⟩), aad := [] },
        { storageW with groupState := some (.pendingCommit (.member ⟨false, 0⟩)) },
        .ok (10, none, none)) ∧
    commitToPendingProposals provW
        { groupW with groupState := .pendingCommit (.member ⟨false, 0⟩), aad := [] }
        { storageW with groupState := some (.pendingCommit (.member ⟨false, 0⟩)) } =
      ({ groupW with groupState := .pendingCommit (.member ⟨false, 0⟩), aad := [] },
        { storageW with groupState := some (.pendingCommit (.member ⟨false, 0⟩)) },
        .error (.groupStateError .pendingCommit)) := by
  refine ⟨rfl, ?_, rfl, ?_⟩
  · exact (commit_twice_fails provW provW storageW storageW).1 groupPendingW
      (.member ⟨false, 0⟩) rfl
  · exact (commit_twice_fails provW provW storageW storageW).2 groupW
      { groupW with groupState := .pendingCommit (.member ⟨false, 0⟩), aad := [] }
      { storageW with groupState := some (.pendingCommit (.member ⟨false, 0⟩)) }
      (10, none, none) rfl

/-- Claim C6: once the group state is Inactive it stays Inactive — every
call to `process_message`, `commit_to_pending_proposals` or
`merge_pending_commit` fails with the use-after-eviction group-state
error, for every message, and returns the group and the storage
unchanged. -/
theorem inactive_is_sticky (p : Provider) (g : MlsGroup) (st : StorageState)
    (m : ProtocolMessage) (h : g.groupState = .inactive) :
    processMessage p g st m =
      (g, st, .err (.groupStateError .useAfterEviction)) ∧
    commitToPendingProposals p g st =
      (g, st, .error (.groupStateError .useAfterEviction)) ∧
    mergePendingCommit p g st =
      (g, st, [], some (.groupStateError .useAfterEviction)) := by
  refine ⟨?_, ?_, ?_⟩
  · simp [processMessage, decryptAndVerifyMessage, MlsGroupState.isActive, h]
  · simp [commitToPendingProposals, isOperationalCheck, h]
  · simp [mergePendingCommit, h]

/-- Witness for the inactive-is-sticky theorem on the concrete evicted
group. -/
theorem inactive_is_sticky_witness :
    groupInactiveW.groupState = MlsGroupState.inactive ∧
    processMessage provW groupInactiveW storageW (.publicMsg pmInWindowW) =
      (groupInactiveW, storageW, .err (.groupStateError .useAfterEviction)) ∧
    mergePendingCommit provW groupInactiveW storageW =
      (groupInactiveW, storageW, [], some (.groupStateError .useAfterEviction)) := by
  have h := inactive_is_sticky provW groupInactiveW storageW (.publicMsg pmInWindowW) rfl
  exact ⟨rfl, h.1, h.2.2⟩

/-- Counterexample to claim C9 as stated: on a concrete run in which the
storage write of the new group state fails, `commit_to_pending_proposals`
returns an error, yet the group state after the call is the already-set
pending-commit state, not Operational. -/
theorem commit_error_state_counterexample :
    (commitToPendingProposals provW groupW storageFailW).2.2 =
      .error .storageError ∧
    (commitToPendingProposals provW groupW storageFailW).1.groupState =
      .pendingCommit (.member ⟨false, 0⟩) ∧
    (commitToPendingProposals provW groupW storageFailW).1.groupState ≠
      MlsGroupState.operational := by
  refine ⟨rfl, rfl, ?_⟩
  decide

/-- Claim C9 (amended): when `commit_to_pending_proposals` is called on an
Operational group and returns an error, the group state after the call is
still Operational and the storage is unchanged — except when the error is
the storage error raised while persisting the new group state, in which
case the in-memory group state has already been set to PendingCommit
(the storage is still unchanged). -/
theorem commit_error_leaves_state (p : Provider) (g : MlsGroup) (st : StorageState)
    (e : CommitToPendingProposalsError)
    (h0 : g.groupState = .operational)
    (h : (commitToPendingProposals p g st).2.2 = .error e) :
    (commitToPendingProposals p g st).2.1 = st ∧
    (e ≠ .storageError →
      (commitToPendingProposals p g st).1.groupState = .operational) ∧
    (e = .storageError →
      ∃ s, (commitToPendingProposals p g st).1.groupState = .pendingCommit s) := by
  have hop : isOperationalCheck g = none := by simp [isOperationalCheck, h0]
  rcases hc : p.createCommit g with c | ccr
  · have hr : commitToPendingProposals p g st =
        (g, st, .error (.createCommitError c)) := by
      simp [commitToPendingProposals, hop, hc]
    rw [hr] at h ⊢
    simp only [Except.error.injEq] at h
    refine ⟨rfl, fun _ => h0, fun he => ?_⟩
    rw [← h] at he
    cases he
  · rcases hm : p.contentToMlsMessage g ccr.commit with c | msg
    · have hr : commitToPendingProposals p g st =
          (g, st, .error (.libraryError c)) := by
        simp [commitToPendingProposals, hop, hc, hm]
      rw [hr] at h ⊢
      simp only [Except.error.injEq] at h
      refine ⟨rfl, fun _ => h0, fun he => ?_⟩
      rw [← h] at he
      cases he
    · cases hfail : st.failWriteGroupState with
      | true =>
        have hr : commitToPendingProposals p g st =
            ({ g with groupState :=
                MlsGroupState.pendingCommit (.member ccr.stagedCommit) },
              st, .error .storageError) := by
          simp [commitToPendingProposals, hop, hc, hm, hfail]
        rw [hr] at h ⊢
        simp only [Except.error.injEq] at h
        refine ⟨rfl, fun hne => ?_, fun _ => ⟨.member ccr.stagedCommit, rfl⟩⟩
        exact absurd h.symm hne
      | false =>
        have hr : (commitToPendingProposals p g st).2.2 =
            .ok (msg, ccr.welcomeOption, ccr.groupInfo) := by
          simp [commitToPendingProposals, hop, hc, hm, hfail]
        rw [hr] at h
        cases h

/-- Witness for the amended commit-error theorem: a concrete failing
commit creation on an operational group leaves it operational. -/
theorem commit_error_leaves_state_witness :
    groupW.groupState = MlsGroupState.operational ∧
    (commitToPendingProposals provNoCommitW groupW storageW).2.2 =
      .error (.createCommitError 4) ∧
    (commitToPendingProposals provNoCommitW groupW storageW).1.groupState =
      MlsGroupState.operational := by
  refine ⟨rfl, rfl, ?_⟩
  exact (commit_error_leaves_state provNoCommitW groupW storageW
    (.createCommitError 4) rfl rfl).2.1 (by decide)

/-- Claim C10: calling `merge_pending_commit` while the group state is
Operational succeeds as a no-op: no merge is performed, no storage write
occurs (empty write trace, storage returned unchanged) and the group is
returned unchanged, still Operational. -/
theorem merge_pending_noop (p : Provider) (g : MlsGroup) (st : StorageState)
    (h : g.groupState = .operational) :
    mergePendingCommit p g st = (g, st, [], none) := by
  simp [mergePendingCommit, h]

/-- Witness for the merge-pending no-op theorem on the concrete
operational group. -/
theorem merge_pending_noop_witness :
    groupW.groupState = MlsGroupState.operational ∧
    mergePendingCommit provW groupW storageW = (groupW, storageW, [], none) :=
  ⟨rfl, merge_pending_noop provW groupW storageW rfl⟩

/-- The pending-commit clearing step never touches the own leaf nodes,
neither in memory nor in storage. -/
theorem clearPendingCommit_own_leaf_nodes (g : MlsGroup) (st : StorageState) :
    (clearPendingCommit g st).1.ownLeafNodes = g.ownLeafNodes ∧
    (clearPendingCommit g st).2.1.ownLeafNodes = st.ownLeafNodes := by
  unfold clearPendingCommit
  split
  · split
    · exact ⟨rfl, rfl⟩
    · exact ⟨rfl, rfl⟩
  · exact ⟨rfl, rfl⟩

/-- Claim C3: for every staged commit whose self-removed flag is set, a
successful `merge_staged_commit` sets the group state to Inactive and
persists it before any other write; the persisted writes happen in
exactly the order: group state (Inactive), epoch/tree replacement,
resumption-PSK store, own-leaf-node deletion — with the final
pending-commit clearing step writing nothing, the state already being
Inactive. -/
theorem merge_selfremoved_order (p : Provider) (g : MlsGroup) (st : StorageState)
    (sc : StagedCommit) (g2 : MlsGroup) (st2 : StorageState)
    (tr : List StorageEvent)
    (hsr : sc.selfRemoved = true)
    (h : mergeStagedCommit p g st sc = (g2, st2, tr, none)) :
    tr = [.writeGroupState .inactive, .replaceEpochTree,
      .writeResumptionPskStore, .deleteOwnLeafNodes] ∧
    g2.groupState = .inactive ∧
    st2.groupState = some MlsGroupState.inactive := by
  cases hf1 : st.failWriteGroupState with
  | true =>
    have hr : (mergeStagedCommit p g st sc).2.2.2 = some .storageError := by
      simp [mergeStagedCommit, hsr, hf1]
    rw [h] at hr
    simp at hr
  | false =>
    rcases hm : p.mergeCommit { g with groupState := MlsGroupState.inactive } sc
      with c | ⟨ep, tree, psk⟩
    · have hr : (mergeStagedCommit p g st sc).2.2.2 = some (.mergeError c) := by
        simp [mergeStagedCommit, hsr, hf1, hm]
      rw [h] at hr
      simp at hr
    · cases hf2 : st.failWriteResumptionPskStore with
      | true =>
        have hr : (mergeStagedCommit p g st sc).2.2.2 = some .storageError := by
          simp [mergeStagedCommit, hsr, hf1, hm, hf2]
        rw [h] at hr
        simp at hr
      | false =>
        cases hf3 : st.failDeleteOwnLeafNodes with
        | true =>
          have hr : (mergeStagedCommit p g st sc).2.2.2 = some .storageError := by
            simp [mergeStagedCommit, hsr, hf1, hm, hf2, hf3]
          rw [h] at hr
          simp at hr
        | false =>
          have hr : mergeStagedCommit p g st sc =
              ({ g with
                  groupState := MlsGroupState.inactive, epoch := ep,
                  treeState := tree, resumptionPsk := psk,
                  resumptionPskStore := g.resumptionPskStore ++ [(ep, psk)],
                  ownLeafNodes := [] },
                { st with
                  groupState := some MlsGroupState.inactive,
                  resumptionPskStore := some (g.resumptionPskStore ++ [(ep, psk)]),
                  ownLeafNodes := [] },
                [.writeGroupState .inactive, .replaceEpochTree,
                  .writeResumptionPskStore, .deleteOwnLeafNodes], none) := by
            simp [mergeStagedCommit, clearPendingCommit, hsr, hf1, hm, hf2, hf3]
          rw [h] at hr
          simp only [Prod.mk.injEq, and_true] at hr
          obtain ⟨hg, hst, htr⟩ := hr
          subst hg
          subst hst
          exact ⟨htr, rfl, rfl⟩

/-- Witness for the self-removed merge-order theorem: the concrete
successful self-removed merge. -/
theorem merge_selfremoved_order_witness :
    scSelfRemovedW.selfRemoved = true ∧
    (mergeStagedCommit provW groupW storageW scSelfRemovedW).2.2.1 =
      [.writeGroupState .inactive, .replaceEpochTree,
        .writeResumptionPskStore, .deleteOwnLeafNodes] ∧
    (mergeStagedCommit provW groupW storageW scSelfRemovedW).1.groupState =
      .inactive := by
  have h := merge_selfremoved_order provW groupW storageW scSelfRemovedW
    (mergeStagedCommit provW groupW storageW scSelfRemovedW).1
    (mergeStagedCommit provW groupW storageW scSelfRemovedW).2.1
    (mergeStagedCommit provW groupW storageW scSelfRemovedW).2.2.1
    rfl rfl
  exact ⟨rfl, h.1, h.2.1⟩

/-- Claim C4: after every successful `merge_staged_commit`, the member's
own pending leaf key pairs are cleared from the in-memory group and
deleted from storage. -/
theorem merge_deletes_own_leaf_keys (p : Provider) (g : MlsGroup)
    (st : StorageState) (sc : StagedCommit) (g2 : MlsGroup) (st2 : StorageState)
    (tr : List StorageEvent)
    (h : mergeStagedCommit p g st sc = (g2, st2, tr, none)) :
    g2.ownLeafNodes = [] ∧ st2.ownLeafNodes = [] := by
  have step : ∀ g1 : MlsGroup,
      (if sc.selfRemoved then { g with groupState := MlsGroupState.inactive }
        else g) = g1 →
      mergeStagedCommit p g st sc = (g2, st2, tr, none) →
      g2.ownLeafNodes = [] ∧ st2.ownLeafNodes = [] := by
    intro g1 hg1 hrun
    cases hf1 : st.failWriteGroupState with
    | true =>
      have hr : (mergeStagedCommit p g st sc).2.2.2 = some .storageError := by
        simp [mergeStagedCommit, hf1]
      rw [hrun] at hr
      simp at hr
    | false =>
      rcases hm : p.mergeCommit g1 sc with c | ⟨ep, tree, psk⟩
      · have hr : (mergeStagedCommit p g st sc).2.2.2 = some (.mergeError c) := by
          simp [mergeStagedCommit, hf1, hg1, hm]
        rw [hrun] at hr
        simp at hr
      · cases hf2 : st.failWriteResumptionPskStore with
        | true =>
          have hr : (mergeStagedCommit p g st sc).2.2.2 = some .storageError := by
            simp [mergeStagedCommit, hf1, hg1, hm, hf2]
          rw [hrun] at hr
          simp at hr
        | false =>
          cases hf3 : st.failDeleteOwnLeafNodes with
          | true =>
            have hr : (mergeStagedCommit p g st sc).2.2.2 = some .storageError := by
              simp [mergeStagedCommit, hf1, hg1, hm, hf2, hf3]
            rw [hrun] at hr
            simp at hr
          | false =>
            have hmem : (mergeStagedCommit p g st sc).1.ownLeafNodes = [] := by
              simp only [mergeStagedCommit, hf1, hg1, hm, hf2, hf3]
              simp only [Bool.false_eq_true, if_false]
              rw [(clearPendingCommit_own_leaf_nodes _ _).1]
            have hsto : (mergeStagedCommit p g st sc).2.1.ownLeafNodes = [] := by
              simp only [mergeStagedCommit, hf1, hg1, hm, hf2, hf3]
              simp only [Bool.false_eq_true, if_false]
              rw [(clearPendingCommit_own_leaf_nodes _ _).2]
            rw [hrun] at hmem hsto
            exact ⟨hmem, hsto⟩
  exact step _ rfl h

/-- Witness for the own-leaf-key deletion theorem: the concrete
successful ordinary (non-self-removed) merge. -/
theorem merge_deletes_own_leaf_keys_witness :
    (mergeStagedCommit provW groupW storageW scOrdinaryW).1.ownLeafNodes = [] ∧
    (mergeStagedCommit provW groupW storageW scOrdinaryW).2.1.ownLeafNodes = [] := by
  exact merge_deletes_own_leaf_keys provW groupW storageW scOrdinaryW
    (mergeStagedCommit provW groupW storageW scOrdinaryW).1
    (mergeStagedCommit provW groupW storageW scOrdinaryW).2.1
    (mergeStagedCommit provW groupW storageW scOrdinaryW).2.2.1
    rfl

/-- Claim C8: on a well-formed secrets store retaining exactly the
bounded window of past epochs, `decrypt_message` fails on a public
message whose epoch is older than the window with the distinct
no-past-epoch-data error, decrypts a public message from a retained past
epoch with that epoch's retained message secrets, and decrypts one from
the current epoch with the current secrets. -/
theorem epoch_window (p : Provider) (g : MlsGroup) (pm : PublicMessage)
    (hw : retainsWindow g)
    (hf : p.validateFraming g.treeState (.publicMsg pm) = .ok ()) :
    (g.epoch > pm.epoch + g.messageSecretsStore.maxEpochs →
      decryptMessage p g (.publicMsg pm) = (g, .error .noPastEpochData)) ∧
    (pm.epoch < g.epoch → g.epoch ≤ pm.epoch + g.messageSecretsStore.maxEpochs →
      ∃ s, List.lookup pm.epoch g.messageSecretsStore.pastSecrets = some s ∧
        decryptMessage p g (.publicMsg pm) =
          (g, p.fromInboundPublicMessage pm s)) ∧
    (pm.epoch = g.epoch →
      decryptMessage p g (.publicMsg pm) =
        (g, p.fromInboundPublicMessage pm g.messageSecretsStore.currentSecrets)) := by
  refine ⟨?_, ?_, ?_⟩
  · intro hold
    have hlt : pm.epoch < g.epoch := by omega
    have hnone : List.lookup pm.epoch g.messageSecretsStore.pastSecrets = none := by
      rcases hl : List.lookup pm.epoch g.messageSecretsStore.pastSecrets with _ | s
      · rfl
      · have hmem := (hw pm.epoch).mp (by rw [hl]; rfl)
        omega
    simp [decryptMessage, hf, messageSecretsForEpoch, hlt, hnone]
  · intro h1 h2
    have hsome := (hw pm.epoch).mpr ⟨h1, h2⟩
    rcases hl : List.lookup pm.epoch g.messageSecretsStore.pastSecrets with _ | s
    · rw [hl] at hsome
      simp at hsome
    · exact ⟨s, rfl, by simp [decryptMessage, hf, messageSecretsForEpoch, h1, hl]⟩
  · intro heq
    have hge : ¬ pm.epoch < g.epoch := by omega
    simp [decryptMessage, hf, messageSecretsForEpoch, hge]

/-- Witness for the epoch-window theorem: the concrete group retains
exactly epoch 1 next to the current epoch 2; the epoch-0 message is
rejected as too old, the epoch-1 message decrypts with the retained
secret 11. -/
theorem epoch_window_witness :
    retainsWindow groupW ∧
    decryptMessage provW groupW (.publicMsg pmTooOldW) =
      (groupW, .error .noPastEpochData) ∧
    (∃ s, List.lookup pmInWindowW.epoch groupW.messageSecretsStore.pastSecrets =
        some s ∧
      decryptMessage provW groupW (.publicMsg pmInWindowW) =
        (groupW, provW.fromInboundPublicMessage pmInWindowW s)) := by
  have hw : retainsWindow groupW := by
    intro e
    match e with
    | 0 => decide
    | 1 => decide
    | (n + 2) =>
      have hne : ((n + 2 : Nat) == 1) = false := by
        simp
      simp [groupW, List.lookup, hne]
  refine ⟨hw, ?_, ?_⟩
  · exact (epoch_window provW groupW pmTooOldW hw rfl).1 (by decide)
  · exact (epoch_window provW groupW pmInWindowW hw rfl).2.1 (by decide) (by decide)

end MlsProc
